import Mathlib

/-!
Verification development for the Artemis assistant core: the interaction
state machine (`artemisStore`), the conversation log (`conversationStore`),
the MCP event dispatcher, the reasoning ring buffer (`reasoningStore`), the
automation rule store (`automationStore`) and the automation sentence
generator (`sentenceGenerator`).

Modelling conventions, applied throughout:
- JavaScript numbers are modelled as `ℚ` where they are compared or clamped
  (voice amplitude, confidence), as `Nat` for timestamps and counters, and as
  `Int` for values that are only printed.
- `generateId()` (a `Date.now()`-plus-random string) is modelled as an opaque
  input parameter of each operation that creates an entry, except in the
  conversation store, where id uniqueness is what the code relies on, so ids
  are modelled by a fresh-id counter `nextId`.
- Zustand's `set`/`get` become explicit state passing: every store action is a
  function from the store state (plus its arguments) to the new store state.
- TypeScript string-literal unions become inductives; `x?: T` fields become
  `Option T`; `Record<string, unknown>` payload maps become association lists
  `List (String × String)` (only carried around, never inspected).
-/

-- ===========================================================================
-- Artemis interaction state machine (src/state/artemisStore.ts)
-- ===========================================================================

namespace Artemis

inductive ArtemisState
  | IDLE | LISTENING | PROCESSING | RESPONDING | SUGGESTING | EXECUTING | OFFLINE
  deriving DecidableEq

inductive MessageType
  | user | assistant | suggestion | system
  deriving DecidableEq

/-- `'device' | 'function' | 'automation'` (the `actionType` union). -/
inductive SuggestionActionType
  | device | function | automation
  deriving DecidableEq

structure ReasoningTrace where
  intent : String
  confidence : ℚ
  toolsUsed : List String
  summary : String
  deriving DecidableEq

inductive Urgency
  | low | normal | high
  deriving DecidableEq

structure Suggestion where
  id : String
  title : String
  description : String
  actionType : SuggestionActionType
  targetId : String
  parameters : Option (List (String × String))
  urgency : Urgency
  previewEffect : String
  requiresApproval : Bool
  deriving DecidableEq

structure MessageMetadata where
  suggestionId : Option String
  actionType : Option SuggestionActionType
  approved : Option Bool
  ttsPlayed : Option Bool
  reasoning : Option ReasoningTrace
  deriving DecidableEq

structure Message where
  id : String
  type : MessageType
  content : String
  timestamp : Nat
  metadata : Option MessageMetadata
  deriving DecidableEq

/-- `ExecutionResult.status`; the source's `'partial'` literal is constructor
`part` (the word itself is reserved here). -/
inductive ExecStatus
  | success | part | failed
  deriving DecidableEq

/-- String interpolation `${result.status}` of an `ExecStatus`. -/
def ExecStatus.asString : ExecStatus → String
  | .success => "success"
  | .part => "partial"
  | .failed => "failed"

structure ExecutionResult where
  status : ExecStatus
  message : String
  affectedDevices : Option (List String)
  error : Option String
  deriving DecidableEq

structure VoiceState where
  isListening : Bool
  transcription : String
  amplitude : ℚ
  deriving DecidableEq

structure ArtemisStore where
  state : ArtemisState
  previousState : Option ArtemisState
  messages : List Message
  currentTranscription : String
  currentSuggestion : Option Suggestion
  voice : VoiceState
  lastExecutionResult : Option ExecutionResult
  isOnline : Bool
  showReasoning : Bool
  deriving DecidableEq

def initialState : ArtemisStore :=
  { state := .IDLE
    previousState := none
    messages := []
    currentTranscription := ""
    currentSuggestion := none
    voice := ⟨false, "", 0⟩
    lastExecutionResult := none
    isOnline := true
    showReasoning := false }

/-- `addMessage` (the `id` and `timestamp` that `generateId()`/`Date.now()`
would produce are inputs). -/
def addMessage (mt : MessageType) (content : String) (md : Option MessageMetadata)
    (id : String) (ts : Nat) (s : ArtemisStore) : ArtemisStore :=
  { s with messages := s.messages ++ [⟨id, mt, content, ts, md⟩] }

def addUserMessage (content id : String) (ts : Nat) (s : ArtemisStore) : ArtemisStore :=
  addMessage .user content none id ts s

/-- `addAssistantMessage`: metadata is `{ reasoning }` when a trace is given,
absent otherwise. -/
def addAssistantMessage (content : String) (reasoning : Option ReasoningTrace)
    (id : String) (ts : Nat) (s : ArtemisStore) : ArtemisStore :=
  addMessage .assistant content (reasoning.map fun r => ⟨none, none, none, none, some r⟩) id ts s

def addSystemMessage (content id : String) (ts : Nat) (s : ArtemisStore) : ArtemisStore :=
  addMessage .system content none id ts s

def clearMessages (s : ArtemisStore) : ArtemisStore :=
  { s with messages := [] }

def startListening (s : ArtemisStore) : ArtemisStore :=
  if !s.isOnline then s
  else if s.state ≠ ArtemisState.IDLE then s
  else
    { s with previousState := some s.state
             state := .LISTENING
             currentTranscription := ""
             voice := ⟨true, "", 0⟩ }

def stopListening (transcription id : String) (ts : Nat) (s : ArtemisStore) : ArtemisStore :=
  if s.state ≠ ArtemisState.LISTENING then s
  else
    let s1 := addUserMessage transcription id ts s
    { s1 with previousState := some s.state
              state := .PROCESSING
              currentTranscription := transcription
              voice := ⟨false, transcription, 0⟩ }

def cancelListening (s : ArtemisStore) : ArtemisStore :=
  if s.state ≠ ArtemisState.LISTENING then s
  else
    { s with previousState := some s.state
             state := .IDLE
             currentTranscription := ""
             voice := ⟨false, "", 0⟩ }

def startProcessing (s : ArtemisStore) : ArtemisStore :=
  if !s.isOnline then
    { s with state := .OFFLINE, previousState := some s.state }
  else
    { s with previousState := some s.state, state := .PROCESSING }

/-- `startResponding(response, suggestion?)`: `suggestion || null` is the
`Option` itself (a `Suggestion` object is never falsy). -/
def startResponding (response : String) (suggestion : Option Suggestion)
    (id : String) (ts : Nat) (s : ArtemisStore) : ArtemisStore :=
  if s.state ≠ ArtemisState.PROCESSING then s
  else
    let s1 := addAssistantMessage response none id ts s
    { s1 with previousState := some s.state
              state := if suggestion.isSome then .SUGGESTING else .RESPONDING
              currentSuggestion := suggestion }

def finishResponding (s : ArtemisStore) : ArtemisStore :=
  if s.state ≠ ArtemisState.RESPONDING then s
  else
    match s.currentSuggestion with
    | some _ => { s with previousState := some s.state, state := .SUGGESTING }
    | none => { s with previousState := some s.state, state := .IDLE }

def showSuggestion (suggestion : Suggestion) (s : ArtemisStore) : ArtemisStore :=
  { s with previousState := some s.state
           state := .SUGGESTING
           currentSuggestion := some suggestion }

def approveSuggestion (id : String) (ts : Nat) (s : ArtemisStore) : ArtemisStore :=
  match s.currentSuggestion with
  | none => s
  | some cs =>
    if s.state ≠ ArtemisState.SUGGESTING then s
    else
      let s1 := addSystemMessage ("Approved: " ++ cs.title) id ts s
      { s1 with previousState := some s.state, state := .EXECUTING }

def declineSuggestion (id : String) (ts : Nat) (s : ArtemisStore) : ArtemisStore :=
  if s.state ≠ ArtemisState.SUGGESTING then s
  else
    let s1 :=
      match s.currentSuggestion with
      | some cs => addSystemMessage ("Declined: " ++ cs.title) id ts s
      | none => s
    { s1 with previousState := some s.state, state := .IDLE, currentSuggestion := none }

def startExecuting (s : ArtemisStore) : ArtemisStore :=
  { s with previousState := some s.state, state := .EXECUTING }

/-- `finishExecuting`: note the source writes the literal `'EXECUTING'` into
`previousState`, not the state it was called in. -/
def finishExecuting (result : ExecutionResult) (id : String) (ts : Nat)
    (s : ArtemisStore) : ArtemisStore :=
  let s1 :=
    if result.status = ExecStatus.success then
      addAssistantMessage result.message none id ts s
    else
      addSystemMessage (result.status.asString ++ ": " ++ result.message) id ts s
  { s1 with previousState := some ArtemisState.EXECUTING
            state := .IDLE
            currentSuggestion := none
            lastExecutionResult := some result }

def goIdle (s : ArtemisStore) : ArtemisStore :=
  { s with previousState := some s.state
           state := .IDLE
           currentSuggestion := none
           voice := ⟨false, "", 0⟩ }

/-- `setOffline`: the `false` branch writes the literal `'OFFLINE'` into
`previousState`. -/
def setOffline (offline : Bool) (s : ArtemisStore) : ArtemisStore :=
  if offline then
    { s with previousState := some s.state, state := .OFFLINE, isOnline := false }
  else
    { s with previousState := some ArtemisState.OFFLINE, state := .IDLE, isOnline := true }

def updateVoiceAmplitude (amplitude : ℚ) (s : ArtemisStore) : ArtemisStore :=
  { s with voice := { s.voice with amplitude := max 0 (min 1 amplitude) } }

def updateTranscription (text : String) (s : ArtemisStore) : ArtemisStore :=
  { s with voice := { s.voice with transcription := text }
           currentTranscription := text }

def toggleReasoning (s : ArtemisStore) : ArtemisStore :=
  { s with showReasoning := !s.showReasoning }

def reset (_s : ArtemisStore) : ArtemisStore :=
  initialState

/-- One store action together with its arguments (the ids and timestamps the
environment would supply). -/
inductive ArtemisOp
  | startListening
  | stopListening (transcription id : String) (ts : Nat)
  | cancelListening
  | startProcessing
  | startResponding (response : String) (suggestion : Option Suggestion) (id : String) (ts : Nat)
  | finishResponding
  | showSuggestion (suggestion : Suggestion)
  | approveSuggestion (id : String) (ts : Nat)
  | declineSuggestion (id : String) (ts : Nat)
  | startExecuting
  | finishExecuting (result : ExecutionResult) (id : String) (ts : Nat)
  | goIdle
  | setOffline (offline : Bool)
  | addMessage (mt : MessageType) (content : String) (md : Option MessageMetadata) (id : String) (ts : Nat)
  | addUserMessage (content id : String) (ts : Nat)
  | addAssistantMessage (content : String) (reasoning : Option ReasoningTrace) (id : String) (ts : Nat)
  | addSystemMessage (content id : String) (ts : Nat)
  | clearMessages
  | updateVoiceAmplitude (amplitude : ℚ)
  | updateTranscription (text : String)
  | toggleReasoning
  | reset
  deriving DecidableEq

def applyOp : ArtemisOp → ArtemisStore → ArtemisStore
  | .startListening, s => startListening s
  | .stopListening t id ts, s => stopListening t id ts s
  | .cancelListening, s => cancelListening s
  | .startProcessing, s => startProcessing s
  | .startResponding r sg id ts, s => startResponding r sg id ts s
  | .finishResponding, s => finishResponding s
  | .showSuggestion sg, s => showSuggestion sg s
  | .approveSuggestion id ts, s => approveSuggestion id ts s
  | .declineSuggestion id ts, s => declineSuggestion id ts s
  | .startExecuting, s => startExecuting s
  | .finishExecuting r id ts, s => finishExecuting r id ts s
  | .goIdle, s => goIdle s
  | .setOffline b, s => setOffline b s
  | .addMessage mt c md id ts, s => addMessage mt c md id ts s
  | .addUserMessage c id ts, s => addUserMessage c id ts s
  | .addAssistantMessage c r id ts, s => addAssistantMessage c r id ts s
  | .addSystemMessage c id ts, s => addSystemMessage c id ts s
  | .clearMessages, s => clearMessages s
  | .updateVoiceAmplitude a, s => updateVoiceAmplitude a s
  | .updateTranscription t, s => updateTranscription t s
  | .toggleReasoning, s => toggleReasoning s
  | .reset, s => reset s

/-- Run a sequence of store operations from the initial state. -/
def runOps (ops : List ArtemisOp) : ArtemisStore :=
  ops.foldl (fun s o => applyOp o s) initialState

/-- The precondition under which an operation performs a state transition
(the guard the source checks before calling `set`); `false` for the message,
voice and settings operations, which are not transitions. -/
def transitionPre : ArtemisOp → ArtemisStore → Bool
  | .startListening, s => s.isOnline && decide (s.state = ArtemisState.IDLE)
  | .stopListening _ _ _, s => decide (s.state = ArtemisState.LISTENING)
  | .cancelListening, s => decide (s.state = ArtemisState.LISTENING)
  | .startProcessing, _ => true
  | .startResponding _ _ _ _, s => decide (s.state = ArtemisState.PROCESSING)
  | .finishResponding, s => decide (s.state = ArtemisState.RESPONDING)
  | .showSuggestion _, _ => true
  | .approveSuggestion _ _, s =>
      decide (s.state = ArtemisState.SUGGESTING) && s.currentSuggestion.isSome
  | .declineSuggestion _ _, s => decide (s.state = ArtemisState.SUGGESTING)
  | .startExecuting, _ => true
  | .finishExecuting _ _ _, _ => true
  | .goIdle, _ => true
  | .setOffline _, _ => true
  | _, _ => false

/-- The transition operations that check a precondition and silently return
when it fails (the operations the invalid-op claim ranges over). -/
def hasGuard : ArtemisOp → Bool
  | .startListening => true
  | .stopListening _ _ _ => true
  | .cancelListening => true
  | .startResponding _ _ _ _ => true
  | .finishResponding => true
  | .approveSuggestion _ _ => true
  | .declineSuggestion _ _ => true
  | _ => false

/-- The two operations that write a literal into `previousState` instead of
the pre-transition state. -/
def hardcodesPrev : ArtemisOp → Bool
  | .finishExecuting _ _ _ => true
  | .setOffline false => true
  | _ => false

/-- A concrete suggestion used for closed instances. -/
def sampleSuggestion : Suggestion :=
  ⟨"s1", "Dim the lights", "Dim the living room lights to 40%", .device,
    "light-living", none, .normal, "lights dim", true⟩

/-- A concrete execution result used for closed instances. -/
def sampleResult : ExecutionResult :=
  ⟨.success, "Done", none, none⟩

end Artemis

-- ===========================================================================
-- Conversation store (src/state/conversationStore.ts)
-- ===========================================================================

namespace Conversation

inductive ConvMessageType
  | USER | ASSISTANT | SUGGESTION | SYSTEM
  deriving DecidableEq

structure SuggestionData where
  actionType : Artemis.SuggestionActionType
  targetId : String
  parameters : Option (List (String × String))
  deriving DecidableEq

structure ConversationMessage where
  id : Nat
  type : ConvMessageType
  content : String
  timestamp : Nat
  suggestion : Option SuggestionData
  pending : Option Bool
  approved : Option Bool
  deriving DecidableEq

/-- The store state. `generateId()` is modelled by the counter `nextId`: the
only property of the generated ids the code relies on is that a fresh id
differs from every id already in the log. -/
structure ConvState where
  messages : List ConversationMessage
  nextId : Nat
  deriving DecidableEq

def initialConv : ConvState := ⟨[], 0⟩

/-- `addMessage`: appends the entry under a fresh id (the returned id is the
pre-state's `nextId`). -/
def addMessage (mt : ConvMessageType) (content : String) (sg : Option SuggestionData)
    (pending approved : Option Bool) (ts : Nat) (c : ConvState) : ConvState :=
  ⟨c.messages ++ [⟨c.nextId, mt, content, ts, sg, pending, approved⟩], c.nextId + 1⟩

def addUserMessage (content : String) (ts : Nat) (c : ConvState) : ConvState :=
  addMessage .USER content none none none ts c

def addAssistantMessage (content : String) (ts : Nat) (c : ConvState) : ConvState :=
  addMessage .ASSISTANT content none none none ts c

def addSuggestion (content : String) (sg : SuggestionData) (ts : Nat) (c : ConvState) : ConvState :=
  addMessage .SUGGESTION content (some sg) (some true) none ts c

def addSystemMessage (content : String) (ts : Nat) (c : ConvState) : ConvState :=
  addMessage .SYSTEM content none none none ts c

def approveSuggestion (id : Nat) (c : ConvState) : ConvState :=
  { c with
    messages := c.messages.map fun m =>
      if m.id = id then { m with approved := some true, pending := some false } else m }

def rejectSuggestion (id : Nat) (c : ConvState) : ConvState :=
  { c with
    messages := c.messages.map fun m =>
      if m.id = id then { m with approved := some false, pending := some false } else m }

def removeMessage (id : Nat) (c : ConvState) : ConvState :=
  { c with messages := c.messages.filter fun m => decide (m.id ≠ id) }

def clearConversation (c : ConvState) : ConvState :=
  { c with messages := [] }

end Conversation

-- ===========================================================================
-- MCP event types and dispatcher (src/mcp/types.ts, src/mcp/eventHandler.ts)
-- ===========================================================================

namespace MCP

inductive RiskLevel
  | low | medium | high
  deriving DecidableEq

structure SuggestionPayload where
  content : String
  actionType : Artemis.SuggestionActionType
  targetId : String
  parameters : Option (List (String × String))
  riskLevel : RiskLevel
  requiresApproval : Bool
  deriving DecidableEq

structure MessagePayload where
  content : String
  tts : Option Bool
  deriving DecidableEq

/-- `handleSuggestion`: adds one pending suggestion entry to the conversation
log; it reads neither the state machine nor `requiresApproval` (the comment in
the source defers the orb state to the store). -/
def handleSuggestion (p : SuggestionPayload) (ts : Nat) (c : Conversation.ConvState) :
    Conversation.ConvState :=
  Conversation.addSuggestion p.content ⟨p.actionType, p.targetId, p.parameters⟩ ts c

/-- `handleMessage`: adds the assistant message to the conversation log, then
drives the state machine through `startResponding` (no suggestion argument).
`cts` is the conversation timestamp; `aid`/`ats` the id and timestamp of the
state machine's own message. -/
def handleMessage (p : MessagePayload) (cts : Nat) (aid : String) (ats : Nat)
    (c : Conversation.ConvState) (a : Artemis.ArtemisStore) :
    Conversation.ConvState × Artemis.ArtemisStore :=
  (Conversation.addAssistantMessage p.content cts c,
   Artemis.startResponding p.content none aid ats a)

end MCP

-- ===========================================================================
-- Reasoning store (src/state/reasoningStore.ts)
-- ===========================================================================

namespace Reasoning

/-- A thought; the generated id is carried as data (nothing inspects it). -/
structure Thought where
  id : String
  content : String
  confidence : Option ℚ
  step : Option Nat
  timestamp : Nat
  deriving DecidableEq

structure ReasoningStore where
  thoughts : List Thought
  isVisible : Bool
  maxThoughts : Nat
  deriving DecidableEq

def initialReasoning : ReasoningStore := ⟨[], false, 20⟩

/-- `addThought`: append, then keep only the last `maxThoughts` entries
(`slice(-maxThoughts)`, for the `maxThoughts ≥ 1` the store uses). -/
def addThought (t : Thought) (s : ReasoningStore) : ReasoningStore :=
  let updated := s.thoughts ++ [t]
  if s.maxThoughts < updated.length then
    { s with thoughts := updated.drop (updated.length - s.maxThoughts) }
  else
    { s with thoughts := updated }

def clearThoughts (s : ReasoningStore) : ReasoningStore :=
  { s with thoughts := [] }

def runThoughts (ts : List Thought) : ReasoningStore :=
  ts.foldl (fun s t => addThought t s) initialReasoning

/-- A concrete thought used for closed instances. -/
def sampleThought (n : Nat) : Thought :=
  ⟨"t", "step", none, some n, n⟩

end Reasoning


-- ===========================================================================
-- Automation language types (src/automation/types.ts) and the sentence
-- generator (src/automation/sentenceGenerator.ts)
-- ===========================================================================

namespace AAL

/-- `string | number | boolean` values; numbers restricted to the integers,
which is how every value in scope is written and printed. -/
inductive JsVal
  | str (s : String)
  | num (n : Int)
  | bool (b : Bool)
  deriving DecidableEq

/-- String interpolation `${value}` of a `JsVal`. -/
def JsVal.asString : JsVal → String
  | .str s => s
  | .num n => toString n
  | .bool true => "true"
  | .bool false => "false"

inductive SensorOp
  | gt | lt | eq | ge | le
  deriving DecidableEq

/-- `SensorTrigger`. `sensorType` is a `String`: the lookup tables index by
string and keep an explicit fallback, and the claims quantify over unknown
sensor-type strings. -/
structure SensorTrigger where
  sensorType : String
  operator : SensorOp
  value : Int
  unit : Option String
  deriving DecidableEq

inductive Day
  | mon | tue | wed | thu | fri | sat | sun
  deriving DecidableEq

/-- `TimeTrigger`; the source field `repeat` is a reserved word here, so it is
named `repeats`. -/
structure TimeTrigger where
  time : String
  days : Option (List Day)
  repeats : Bool
  deriving DecidableEq

structure EventTrigger where
  eventName : String
  deviceId : Option String
  deriving DecidableEq

inductive DeviceOp
  | eq | ne | gt | lt
  deriving DecidableEq

structure DeviceTrigger where
  deviceId : String
  property : String
  operator : DeviceOp
  value : JsVal
  deriving DecidableEq

inductive Trigger
  | sensor (t : SensorTrigger)
  | time (t : TimeTrigger)
  | event (t : EventTrigger)
  | device (t : DeviceTrigger)
  deriving DecidableEq

inductive DeviceActKind
  | turn_on | turn_off | toggle
  deriving DecidableEq

structure DeviceAction where
  type : DeviceActKind
  deviceId : String
  deviceName : Option String
  deriving DecidableEq

structure SetAction where
  deviceId : String
  deviceName : Option String
  property : String
  value : JsVal
  unit : Option String
  deriving DecidableEq

structure NotifyAction where
  message : String
  priority : Option Artemis.Urgency
  deriving DecidableEq

structure DelayAction where
  duration : Int
  deriving DecidableEq

structure SceneAction where
  sceneId : String
  sceneName : Option String
  deriving DecidableEq

inductive Action
  | device (a : DeviceAction)
  | set (a : SetAction)
  | notify (a : NotifyAction)
  | delay (a : DelayAction)
  | scene (a : SceneAction)
  deriving DecidableEq

inductive CondCombinator
  | and | or
  deriving DecidableEq

inductive CondOp
  | gt | lt | eq | ge | le | ne
  deriving DecidableEq

structure ConditionExpression where
  sensorType : Option String
  deviceId : Option String
  property : Option String
  operator : CondOp
  value : JsVal
  deriving DecidableEq

structure Condition where
  type : CondCombinator
  left : ConditionExpression
  right : ConditionExpression
  deriving DecidableEq

/-- JavaScript `x || y` over an optional string: an absent or empty string is
falsy. -/
def jsOr (x : Option String) (y : String) : String :=
  match x with
  | some s => if s = "" then y else s
  | none => y

-- ---------------------------------------------------------------------------
-- Sentence generator
-- ---------------------------------------------------------------------------

/-- `sensorNames[x] || x` (every table value is non-empty, hence truthy). -/
def sensorName (st : String) : String :=
  if st = "temperature" then "temperature"
  else if st = "humidity" then "humidity"
  else if st = "light_level" then "light level"
  else if st = "motion" then "motion"
  else if st = "door" then "door"
  else if st = "window" then "window"
  else st

/-- `operatorWords` (total over the operator union, so the `|| operator`
fallback is unreachable). -/
def sensorOpWord : SensorOp → String
  | .gt => "goes above"
  | .lt => "drops below"
  | .eq => "reaches"
  | .ge => "reaches or exceeds"
  | .le => "reaches or drops below"

/-- `trigger.unit || (trigger.sensorType === 'temperature' ? '°C' : '')`. -/
def sensorUnit (t : SensorTrigger) : String :=
  jsOr t.unit (if t.sensorType = "temperature" then "°C" else "")

def formatSensorTrigger (t : SensorTrigger) : String :=
  "the " ++ sensorName t.sensorType ++ " " ++ sensorOpWord t.operator ++ " " ++
    toString t.value ++ sensorUnit t

/-- JavaScript `String.prototype.split` with a single-character separator:
one piece per run between separators, empty pieces kept (`"".split(':')` is
`[""]`). Implemented structurally so that concrete runs reduce. -/
def splitChar (sep : Char) : List Char → List (List Char)
  | [] => [[]]
  | c :: rest =>
    let r := splitChar sep rest
    if c = sep then [] :: r
    else
      match r with
      | [] => [[c]]
      | piece :: ps => (c :: piece) :: ps

def jsSplit (sep : Char) (s : String) : List String :=
  (splitChar sep s.data).map String.mk

def parseDigits : List Char → Nat → Option Nat
  | [], acc => some acc
  | c :: rest, acc =>
    if '0' ≤ c ∧ c ≤ '9' then parseDigits rest (acc * 10 + (c.toNat - '0'.toNat))
    else none

/-- JavaScript `Number(s)` on the strings in scope: `""` is `0`, a string of
decimal digits its value, anything else (including a missing part) `NaN`,
modelled as `none`. -/
def jsNumber (s : String) : Option Nat :=
  parseDigits s.data 0

/-- `.toString().padStart(2, '0')`. -/
def padStart2 (s : String) : String :=
  String.mk (List.replicate (2 - s.length) '0') ++ s

def dayName : Day → String
  | .mon => "Monday"
  | .tue => "Tuesday"
  | .wed => "Wednesday"
  | .thu => "Thursday"
  | .fri => "Friday"
  | .sat => "Saturday"
  | .sun => "Sunday"

def formatTimeTrigger (t : TimeTrigger) : String :=
  let parts := jsSplit ':' t.time
  let hours := match parts[0]? with | some h => jsNumber h | none => none
  let minutes := match parts[1]? with | some m => jsNumber m | none => none
  -- `hours >= 12 ? 'PM' : 'AM'` (a NaN comparison is false)
  let period := match hours with | some h => if 12 ≤ h then "PM" else "AM" | none => "AM"
  -- `hours % 12 || 12` (0 and NaN are falsy)
  let hour12 :=
    match hours with
    | some h => if h % 12 = 0 then "12" else toString (h % 12)
    | none => "12"
  -- `minutes.toString().padStart(2, '0')` (`NaN` prints as "NaN")
  let minuteStr := match minutes with | some m => padStart2 (toString m) | none => "NaN"
  let timeStr := hour12 ++ ":" ++ minuteStr ++ " " ++ period
  match t.days with
  | some ds =>
    if 0 < ds.length ∧ ds.length < 7 then
      "it's " ++ timeStr ++ " on " ++ String.intercalate ", " (ds.map dayName)
    else
      "it's " ++ timeStr ++ (if t.repeats then " every day" else "")
  | none => "it's " ++ timeStr ++ (if t.repeats then " every day" else "")

/-- The `eventNames` table. -/
def eventPhrase (n : String) : Option String :=
  if n = "motion_detected" then some "motion is detected"
  else if n = "door_opened" then some "the door opens"
  else if n = "door_closed" then some "the door closes"
  else if n = "window_opened" then some "the window opens"
  else if n = "window_closed" then some "the window closes"
  else if n = "presence_home" then some "you arrive home"
  else if n = "presence_away" then some "you leave home"
  else none

/-- `.replace(/_/g, ' ')`: a global single-character replacement. -/
def replaceUnderscores (s : String) : String :=
  String.mk (s.data.map fun c => if c = '_' then ' ' else c)

/-- `eventNames[n] || n.replace(/_/g, ' ')` (every table value is truthy). -/
def formatEventTrigger (t : EventTrigger) : String :=
  match eventPhrase t.eventName with
  | some p => p
  | none => replaceUnderscores t.eventName

def deviceOpWord : DeviceOp → String
  | .eq => "is"
  | .ne => "is not"
  | .gt => "is above"
  | .lt => "is below"

def formatDeviceTrigger (t : DeviceTrigger) : String :=
  t.deviceId ++ " " ++ t.property ++ " " ++ deviceOpWord t.operator ++ " " ++
    t.value.asString

/-- `formatTrigger` (the `default` branch of the source switch is unreachable
over the closed trigger union). -/
def formatTrigger : Trigger → String
  | .sensor t => formatSensorTrigger t
  | .time t => formatTimeTrigger t
  | .event t => formatEventTrigger t
  | .device t => formatDeviceTrigger t

def formatDeviceAction (a : DeviceAction) : String :=
  let device := jsOr a.deviceName a.deviceId
  match a.type with
  | .turn_on => "turn on the " ++ device
  | .turn_off => "turn off the " ++ device
  | .toggle => "toggle the " ++ device

def formatSetAction (a : SetAction) : String :=
  let device := jsOr a.deviceName a.deviceId
  let unit := a.unit.getD ""
  "set the " ++ device ++ " " ++ a.property ++ " to " ++ a.value.asString ++ unit

def formatNotifyAction (a : NotifyAction) : String :=
  "send you a notification: \"" ++ a.message ++ "\""

def formatSceneAction (a : SceneAction) : String :=
  "activate the \"" ++ jsOr a.sceneName a.sceneId ++ "\" scene"

def formatAction : Action → String
  | .device a => formatDeviceAction a
  | .set a => formatSetAction a
  | .notify a => formatNotifyAction a
  | .delay a => "wait " ++ toString a.duration ++ " seconds"
  | .scene a => formatSceneAction a

end AAL

-- ===========================================================================
-- Automation store (src/state/automationStore.ts)
-- ===========================================================================

namespace AutomationStore

inductive TrustLevel
  | ask_always | ask_once | auto_approve
  deriving DecidableEq

inductive CreatedBy
  | voice | manual | suggested
  deriving DecidableEq

structure AutomationRule where
  id : String
  name : String
  description : Option String
  trigger : AAL.Trigger
  conditions : Option (List AAL.Condition)
  actions : List AAL.Action
  location : Option String
  enabled : Bool
  createdAt : Nat
  updatedAt : Nat
  lastTriggered : Option Nat
  triggerCount : Nat
  riskLevel : MCP.RiskLevel
  trustLevel : TrustLevel
  requiresConfirmation : Bool
  createdBy : CreatedBy
  isPython : Option Bool
  pythonCode : Option String
  deriving DecidableEq

/-- `Omit<AutomationRule, 'id' | 'createdAt' | 'updatedAt' | 'triggerCount'>`,
the argument of `addRule`. -/
structure NewRuleData where
  name : String
  description : Option String
  trigger : AAL.Trigger
  conditions : Option (List AAL.Condition)
  actions : List AAL.Action
  location : Option String
  enabled : Bool
  lastTriggered : Option Nat
  riskLevel : MCP.RiskLevel
  trustLevel : TrustLevel
  requiresConfirmation : Bool
  createdBy : CreatedBy
  isPython : Option Bool
  pythonCode : Option String
  deriving DecidableEq

/-- `Partial<AutomationRule>`: a field is `some v` when the patch object
carries it (an already-optional field carries an `Option` again). -/
structure RulePatch where
  id : Option String
  name : Option String
  description : Option (Option String)
  trigger : Option AAL.Trigger
  conditions : Option (Option (List AAL.Condition))
  actions : Option (List AAL.Action)
  location : Option (Option String)
  enabled : Option Bool
  createdAt : Option Nat
  updatedAt : Option Nat
  lastTriggered : Option (Option Nat)
  triggerCount : Option Nat
  riskLevel : Option MCP.RiskLevel
  trustLevel : Option TrustLevel
  requiresConfirmation : Option Bool
  createdBy : Option CreatedBy
  isPython : Option (Option Bool)
  pythonCode : Option (Option String)
  deriving DecidableEq

def emptyPatch : RulePatch :=
  ⟨none, none, none, none, none, none, none, none, none, none, none, none, none,
    none, none, none, none, none⟩

/-- The spread `{ ...rule, ...updates }`. -/
def applyPatch (p : RulePatch) (r : AutomationRule) : AutomationRule :=
  { id := p.id.getD r.id
    name := p.name.getD r.name
    description := p.description.getD r.description
    trigger := p.trigger.getD r.trigger
    conditions := p.conditions.getD r.conditions
    actions := p.actions.getD r.actions
    location := p.location.getD r.location
    enabled := p.enabled.getD r.enabled
    createdAt := p.createdAt.getD r.createdAt
    updatedAt := p.updatedAt.getD r.updatedAt
    lastTriggered := p.lastTriggered.getD r.lastTriggered
    triggerCount := p.triggerCount.getD r.triggerCount
    riskLevel := p.riskLevel.getD r.riskLevel
    trustLevel := p.trustLevel.getD r.trustLevel
    requiresConfirmation := p.requiresConfirmation.getD r.requiresConfirmation
    createdBy := p.createdBy.getD r.createdBy
    isPython := p.isPython.getD r.isPython
    pythonCode := p.pythonCode.getD r.pythonCode }

/-- The store state is the rule collection. The draft operations (`setDraft`,
`updateDraft`, `clearDraft`) and `setActionTypeTrust` write only the disjoint
`currentDraft` / `actionTrustLevels` fields and never touch `rules`, so they
are not modelled here. -/
def addRule (d : NewRuleData) (id : String) (now : Nat)
    (rules : List AutomationRule) : List AutomationRule :=
  rules ++ [⟨id, d.name, d.description, d.trigger, d.conditions, d.actions,
    d.location, d.enabled, now, now, d.lastTriggered, 0, d.riskLevel,
    d.trustLevel, d.requiresConfirmation, d.createdBy, d.isPython, d.pythonCode⟩]

/-- `updateRule`: `{ ...rule, ...updates, updatedAt: Date.now() }` on every
rule whose id matches. -/
def updateRule (id : String) (p : RulePatch) (now : Nat)
    (rules : List AutomationRule) : List AutomationRule :=
  rules.map fun r => if r.id = id then { applyPatch p r with updatedAt := now } else r

def deleteRule (id : String) (rules : List AutomationRule) : List AutomationRule :=
  rules.filter fun r => decide (r.id ≠ id)

def toggleRule (id : String) (now : Nat)
    (rules : List AutomationRule) : List AutomationRule :=
  rules.map fun r => if r.id = id then { r with enabled := !r.enabled, updatedAt := now } else r

def enableRule (id : String) (now : Nat)
    (rules : List AutomationRule) : List AutomationRule :=
  updateRule id { emptyPatch with enabled := some true } now rules

def disableRule (id : String) (now : Nat)
    (rules : List AutomationRule) : List AutomationRule :=
  updateRule id { emptyPatch with enabled := some false } now rules

def setRuleTrust (id : String) (trust : TrustLevel) (now : Nat)
    (rules : List AutomationRule) : List AutomationRule :=
  updateRule id
    { emptyPatch with
      trustLevel := some trust
      requiresConfirmation := some (decide (trust = TrustLevel.ask_always)) }
    now rules

def recordTrigger (id : String) (now : Nat)
    (rules : List AutomationRule) : List AutomationRule :=
  rules.map fun r =>
    if r.id = id then { r with lastTriggered := some now, triggerCount := r.triggerCount + 1 }
    else r

/-- The demo `sampleRules`, relative to the module-load `Date.now()` value
`now` (the source file carries the mojibake unit literal as written). -/
def sampleRules (now : Nat) : List AutomationRule :=
  [⟨"sample_1", "Cool Down", some "Turn on fan when it gets hot",
      AAL.Trigger.sensor ⟨"temperature", .gt, 28, some "Â°C"⟩, none,
      [AAL.Action.device ⟨.turn_on, "fan-bedroom", some "bedroom fan"⟩],
      some "bedroom", true, now - 86400000, now - 86400000, none, 12,
      .low, .auto_approve, false, .voice, none, none⟩,
   ⟨"sample_2", "Evening Lights", some "Turn on lights at sunset",
      AAL.Trigger.time ⟨"18:30", none, true⟩, none,
      [AAL.Action.device ⟨.turn_on, "light-living", some "living room lights"⟩,
       AAL.Action.set ⟨"light-living", some "lights", "brightness", .num 70, some "%"⟩],
      some "living room", true, now - 172800000, now - 172800000, none, 28,
      .low, .auto_approve, false, .manual, none, none⟩]

/-- `reset`: restores the sample rules. -/
def resetRules (now : Nat) (_rules : List AutomationRule) : List AutomationRule :=
  sampleRules now

/-- One rule-collection operation with its arguments. -/
inductive AutoOp
  | addRule (d : NewRuleData) (id : String) (now : Nat)
  | updateRule (id : String) (p : RulePatch) (now : Nat)
  | deleteRule (id : String)
  | toggleRule (id : String) (now : Nat)
  | enableRule (id : String) (now : Nat)
  | disableRule (id : String) (now : Nat)
  | setRuleTrust (id : String) (trust : TrustLevel) (now : Nat)
  | recordTrigger (id : String) (now : Nat)
  | resetRules (now : Nat)
  deriving DecidableEq

def applyAutoOp : AutoOp → List AutomationRule → List AutomationRule
  | .addRule d id now, rules => addRule d id now rules
  | .updateRule id p now, rules => updateRule id p now rules
  | .deleteRule id, rules => deleteRule id rules
  | .toggleRule id now, rules => toggleRule id now rules
  | .enableRule id now, rules => enableRule id now rules
  | .disableRule id now, rules => disableRule id now rules
  | .setRuleTrust id trust now, rules => setRuleTrust id trust now rules
  | .recordTrigger id now, rules => recordTrigger id now rules
  | .resetRules now, rules => resetRules now rules

def runAuto (ops : List AutoOp) (rules : List AutomationRule) : List AutomationRule :=
  ops.foldl (fun s o => applyAutoOp o s) rules

/-- The operations that leave every rule's `triggerCount`/`lastTriggered`
alone: everything except `recordTrigger`, `resetRules` (which swaps the whole
collection) and an `updateRule` whose patch carries `id`, `triggerCount` or
`lastTriggered` explicitly. -/
def benign : AutoOp → Bool
  | .updateRule _ p _ =>
      decide (p.id = none) && decide (p.triggerCount = none) &&
        decide (p.lastTriggered = none)
  | .recordTrigger _ _ => false
  | .resetRules _ => false
  | _ => true

/-- The `(triggerCount, lastTriggered)` pair of the first rule with the given
id, the observable the trigger-count claims speak about. -/
def ruleFields (rules : List AutomationRule) (i : String) : Option (Nat × Option Nat) :=
  (rules.find? fun r => decide (r.id = i)).map fun r => (r.triggerCount, r.lastTriggered)

/-- A concrete rule used for closed instances. -/
def sampleRule : AutomationRule :=
  ⟨"r1", "Door check", none, AAL.Trigger.event ⟨"door_opened", none⟩, none,
    [AAL.Action.notify ⟨"The door is open", none⟩], none, true, 0, 0, none, 5,
    .low, .ask_always, true, .manual, none, none⟩

end AutomationStore

-- ===========================================================================
-- Helper lemmas
-- ===========================================================================

theorem foldl_invariant {σ α : Type _} (P : σ → Prop) (f : σ → α → σ)
    (hstep : ∀ s a, P s → P (f s a)) :
    ∀ (l : List α) (s : σ), P s → P (l.foldl f s) := by
  intro l
  induction l with
  | nil => intro s hs; exact hs
  | cons a t ih => intro s hs; exact ih (f s a) (hstep s a hs)

/-- Each Artemis store operation preserves the invariant that no suggestion is
pending while the machine is `RESPONDING`. -/
theorem artemis_responding_step (o : Artemis.ArtemisOp) (s : Artemis.ArtemisStore)
    (h : s.state = Artemis.ArtemisState.RESPONDING → s.currentSuggestion = none) :
    (Artemis.applyOp o s).state = Artemis.ArtemisState.RESPONDING →
      (Artemis.applyOp o s).currentSuggestion = none := by
  cases o <;>
    simp only [Artemis.applyOp, Artemis.startListening, Artemis.stopListening,
      Artemis.cancelListening, Artemis.startProcessing, Artemis.startResponding,
      Artemis.finishResponding, Artemis.showSuggestion, Artemis.approveSuggestion,
      Artemis.declineSuggestion, Artemis.startExecuting, Artemis.finishExecuting,
      Artemis.goIdle, Artemis.setOffline, Artemis.addMessage, Artemis.addUserMessage,
      Artemis.addAssistantMessage, Artemis.addSystemMessage, Artemis.clearMessages,
      Artemis.updateVoiceAmplitude, Artemis.updateTranscription,
      Artemis.toggleReasoning, Artemis.reset, Artemis.initialState] <;>
    (repeat' split) <;> simp_all

-- ===========================================================================
-- C1: currentSuggestion non-null only in SUGGESTING
-- ===========================================================================

/-- C1, counterexample: from the initial state, `showSuggestion` followed by
`approveSuggestion` leaves the store in `EXECUTING` with `currentSuggestion`
still set — `approveSuggestion` transitions to `EXECUTING` without clearing
the suggestion, so "non-null only when state == SUGGESTING" is false. -/
theorem c1_counterexample :
    (Artemis.runOps [.showSuggestion Artemis.sampleSuggestion,
        .approveSuggestion "m1" 1]).state = Artemis.ArtemisState.EXECUTING ∧
    (Artemis.runOps [.showSuggestion Artemis.sampleSuggestion,
        .approveSuggestion "m1" 1]).currentSuggestion = some Artemis.sampleSuggestion := by
  constructor <;> rfl

/-- C1, amended: after any sequence of operations from the initial state,
`currentSuggestion` is null whenever the state is `RESPONDING`; it can be
non-null outside `SUGGESTING` (`approveSuggestion` keeps it through
`EXECUTING`, and `startProcessing`/`setOffline` can carry it further). -/
theorem c1_amended (ops : List Artemis.ArtemisOp)
    (h : (Artemis.runOps ops).state = Artemis.ArtemisState.RESPONDING) :
    (Artemis.runOps ops).currentSuggestion = none := by
  have inv : ∀ (l : List Artemis.ArtemisOp) (s : Artemis.ArtemisStore),
      (s.state = Artemis.ArtemisState.RESPONDING → s.currentSuggestion = none) →
      ((l.foldl (fun t o => Artemis.applyOp o t) s).state = Artemis.ArtemisState.RESPONDING →
        (l.foldl (fun t o => Artemis.applyOp o t) s).currentSuggestion = none) :=
    foldl_invariant
      (fun s => s.state = Artemis.ArtemisState.RESPONDING → s.currentSuggestion = none)
      (fun t o => Artemis.applyOp o t)
      (fun s o hs => artemis_responding_step o s hs)
  exact inv ops Artemis.initialState (by intro hc; cases hc) h

/-- C1 witness: a concrete run reaching `RESPONDING`, where the amended
theorem yields a null suggestion. -/
theorem c1_witness :
    (Artemis.runOps [.startProcessing, .startResponding "hello" none "m1" 1]).state =
      Artemis.ArtemisState.RESPONDING ∧
    (Artemis.runOps [.startProcessing, .startResponding "hello" none "m1" 1]).currentSuggestion =
      none :=
  ⟨by rfl, c1_amended [.startProcessing, .startResponding "hello" none "m1" 1] (by rfl)⟩

-- ===========================================================================
-- C2: previousState records the pre-transition state
-- ===========================================================================

/-- C2, counterexample: `finishExecuting` has a trivially true precondition,
yet invoked from the initial `IDLE` state it writes the literal `EXECUTING`
into `previousState`, not the state the machine was in. -/
theorem c2_counterexample :
    Artemis.transitionPre (.finishExecuting Artemis.sampleResult "i" 0)
      Artemis.initialState = true ∧
    Artemis.initialState.state = Artemis.ArtemisState.IDLE ∧
    (Artemis.applyOp (.finishExecuting Artemis.sampleResult "i" 0)
        Artemis.initialState).previousState = some Artemis.ArtemisState.EXECUTING := by
  refine ⟨rfl, rfl, rfl⟩

/-- C2, amended: every transition whose precondition holds records the
pre-transition state into `previousState`, except `finishExecuting` and
`setOffline(false)`, which always write the literals `EXECUTING` and
`OFFLINE` respectively (correct only when invoked from those states). -/
theorem c2_amended :
    (∀ (o : Artemis.ArtemisOp) (s : Artemis.ArtemisStore),
        Artemis.transitionPre o s = true → Artemis.hardcodesPrev o = false →
        (Artemis.applyOp o s).previousState = some s.state) ∧
    (∀ (r : Artemis.ExecutionResult) (id : String) (ts : Nat)
        (s : Artemis.ArtemisStore),
        (Artemis.applyOp (.finishExecuting r id ts) s).previousState =
          some Artemis.ArtemisState.EXECUTING) ∧
    (∀ s : Artemis.ArtemisStore,
        (Artemis.applyOp (.setOffline false) s).previousState =
          some Artemis.ArtemisState.OFFLINE) := by
  refine ⟨?_, ?_, ?_⟩
  · intro o s hpre hhard
    cases o with
    | startListening =>
      simp only [Artemis.transitionPre, Bool.and_eq_true, decide_eq_true_eq] at hpre
      simp [Artemis.applyOp, Artemis.startListening, hpre.1, hpre.2]
    | stopListening t id ts =>
      simp only [Artemis.transitionPre, decide_eq_true_eq] at hpre
      simp [Artemis.applyOp, Artemis.stopListening, Artemis.addUserMessage,
        Artemis.addMessage, hpre]
    | cancelListening =>
      simp only [Artemis.transitionPre, decide_eq_true_eq] at hpre
      simp [Artemis.applyOp, Artemis.cancelListening, hpre]
    | startProcessing =>
      simp only [Artemis.applyOp, Artemis.startProcessing]
      split <;> rfl
    | startResponding r sg id ts =>
      simp only [Artemis.transitionPre, decide_eq_true_eq] at hpre
      simp [Artemis.applyOp, Artemis.startResponding, Artemis.addAssistantMessage,
        Artemis.addMessage, hpre]
    | finishResponding =>
      simp only [Artemis.transitionPre, decide_eq_true_eq] at hpre
      simp only [Artemis.applyOp, Artemis.finishResponding, hpre]
      repeat' split
      all_goals simp_all
    | showSuggestion sg =>
      simp [Artemis.applyOp, Artemis.showSuggestion]
    | approveSuggestion id ts =>
      simp only [Artemis.transitionPre, Bool.and_eq_true, decide_eq_true_eq] at hpre
      rcases hcs : s.currentSuggestion with _ | cs
      · rw [hcs] at hpre
        simp at hpre
      · simp [Artemis.applyOp, Artemis.approveSuggestion, hcs, hpre.1,
          Artemis.addSystemMessage, Artemis.addMessage]
    | declineSuggestion id ts =>
      simp only [Artemis.transitionPre, decide_eq_true_eq] at hpre
      simp only [Artemis.applyOp, Artemis.declineSuggestion, hpre]
      split <;> simp_all [Artemis.addSystemMessage, Artemis.addMessage]
    | startExecuting =>
      simp [Artemis.applyOp, Artemis.startExecuting]
    | finishExecuting r id ts =>
      simp [Artemis.hardcodesPrev] at hhard
    | goIdle =>
      simp [Artemis.applyOp, Artemis.goIdle]
    | setOffline b =>
      cases b
      · simp [Artemis.hardcodesPrev] at hhard
      · simp [Artemis.applyOp, Artemis.setOffline]
    | addMessage mt c md id ts => exact Bool.noConfusion hpre
    | addUserMessage c id ts => exact Bool.noConfusion hpre
    | addAssistantMessage c r id ts => exact Bool.noConfusion hpre
    | addSystemMessage c id ts => exact Bool.noConfusion hpre
    | clearMessages => exact Bool.noConfusion hpre
    | updateVoiceAmplitude a => exact Bool.noConfusion hpre
    | updateTranscription t => exact Bool.noConfusion hpre
    | toggleReasoning => exact Bool.noConfusion hpre
    | reset => exact Bool.noConfusion hpre
  · intro r id ts s
    simp [Artemis.applyOp, Artemis.finishExecuting]
  · intro s
    simp [Artemis.applyOp, Artemis.setOffline]

/-- C2 witness: `goIdle` from the initial state records `IDLE`. -/
theorem c2_witness :
    Artemis.transitionPre .goIdle Artemis.initialState = true ∧
    Artemis.hardcodesPrev .goIdle = false ∧
    (Artemis.applyOp .goIdle Artemis.initialState).previousState =
      some Artemis.initialState.state :=
  ⟨rfl, rfl, c2_amended.1 .goIdle Artemis.initialState rfl rfl⟩

-- ===========================================================================
-- C3: operations whose precondition fails are no-ops
-- ===========================================================================

/-- C3: each guarded transition operation (`startListening`, `stopListening`,
`cancelListening`, `startResponding`, `finishResponding`, `approveSuggestion`,
`declineSuggestion`) invoked while its precondition fails returns the store
unchanged — in particular the state, the message log and `currentSuggestion`
are untouched, and (the functions being total) no error is raised. -/
theorem c3_theorem (o : Artemis.ArtemisOp) (s : Artemis.ArtemisStore)
    (hg : Artemis.hasGuard o = true) (hpre : Artemis.transitionPre o s = false) :
    Artemis.applyOp o s = s := by
  cases o <;> (try exact Bool.noConfusion hg) <;>
    simp only [Artemis.applyOp, Artemis.startListening, Artemis.stopListening,
      Artemis.cancelListening, Artemis.startResponding, Artemis.finishResponding,
      Artemis.approveSuggestion, Artemis.declineSuggestion] <;>
    (repeat' split) <;> simp_all [Artemis.transitionPre]

/-- C3 witness: `startListening` while `PROCESSING` is a no-op. -/
theorem c3_witness :
    Artemis.hasGuard .startListening = true ∧
    Artemis.transitionPre .startListening
      { Artemis.initialState with state := .PROCESSING } = false ∧
    Artemis.applyOp .startListening { Artemis.initialState with state := .PROCESSING } =
      { Artemis.initialState with state := .PROCESSING } :=
  ⟨rfl, rfl, c3_theorem .startListening
    { Artemis.initialState with state := .PROCESSING } rfl rfl⟩

-- ===========================================================================
-- C9: voice amplitude stays in [0, 1]
-- ===========================================================================

/-- Each Artemis store operation keeps `voice.amplitude` within `[0, 1]`. -/
theorem artemis_amplitude_step (o : Artemis.ArtemisOp) (s : Artemis.ArtemisStore)
    (h : 0 ≤ s.voice.amplitude ∧ s.voice.amplitude ≤ 1) :
    0 ≤ (Artemis.applyOp o s).voice.amplitude ∧
      (Artemis.applyOp o s).voice.amplitude ≤ 1 := by
  cases o <;>
    simp only [Artemis.applyOp, Artemis.startListening, Artemis.stopListening,
      Artemis.cancelListening, Artemis.startProcessing, Artemis.startResponding,
      Artemis.finishResponding, Artemis.showSuggestion, Artemis.approveSuggestion,
      Artemis.declineSuggestion, Artemis.startExecuting, Artemis.finishExecuting,
      Artemis.goIdle, Artemis.setOffline, Artemis.addMessage, Artemis.addUserMessage,
      Artemis.addAssistantMessage, Artemis.addSystemMessage, Artemis.clearMessages,
      Artemis.updateVoiceAmplitude, Artemis.updateTranscription,
      Artemis.toggleReasoning, Artemis.reset, Artemis.initialState] <;>
    (repeat' split) <;>
    simp_all

/-- C9: after any operation sequence from the initial state the voice
amplitude lies in `[0, 1]`, and `updateVoiceAmplitude x` stores exactly the
clamp of `x` into `[0, 1]`. -/
theorem c9_theorem :
    (∀ ops : List Artemis.ArtemisOp,
        0 ≤ (Artemis.runOps ops).voice.amplitude ∧
          (Artemis.runOps ops).voice.amplitude ≤ 1) ∧
    (∀ (x : ℚ) (s : Artemis.ArtemisStore),
        (Artemis.applyOp (.updateVoiceAmplitude x) s).voice.amplitude =
          max 0 (min 1 x)) := by
  constructor
  · intro ops
    exact foldl_invariant
      (fun s => 0 ≤ s.voice.amplitude ∧ s.voice.amplitude ≤ 1)
      (fun t o => Artemis.applyOp o t)
      (fun s o hs => artemis_amplitude_step o s hs)
      ops Artemis.initialState (by norm_num [Artemis.initialState])
  · intro x s
    rfl

-- ===========================================================================
-- C10: MESSAGE event handling
-- ===========================================================================

/-- C10: `handleMessage` always appends the payload content as an assistant
entry to the conversation log; the state machine additionally appends the
same content to its own message log and moves to `RESPONDING` exactly when it
is in `PROCESSING`, and is left entirely unchanged otherwise. -/
theorem c10_theorem (p : MCP.MessagePayload) (cts : Nat) (aid : String) (ats : Nat)
    (c : Conversation.ConvState) (a : Artemis.ArtemisStore) :
    (MCP.handleMessage p cts aid ats c a).1.messages =
      c.messages ++ [⟨c.nextId, .ASSISTANT, p.content, cts, none, none, none⟩] ∧
    (a.state = Artemis.ArtemisState.PROCESSING →
      (MCP.handleMessage p cts aid ats c a).2.messages =
        a.messages ++ [⟨aid, .assistant, p.content, ats, none⟩] ∧
      (MCP.handleMessage p cts aid ats c a).2.state = Artemis.ArtemisState.RESPONDING) ∧
    (a.state ≠ Artemis.ArtemisState.PROCESSING →
      (MCP.handleMessage p cts aid ats c a).2 = a) := by
  refine ⟨rfl, ?_, ?_⟩
  · intro h
    constructor <;>
      simp [MCP.handleMessage, Artemis.startResponding, h,
        Artemis.addAssistantMessage, Artemis.addMessage]
  · intro h
    simp [MCP.handleMessage, Artemis.startResponding, h]

/-- C10 witness: a concrete dispatch from `PROCESSING`. -/
theorem c10_witness :
    (MCP.handleMessage ⟨"hi", none⟩ 1 "a1" 2 Conversation.initialConv
        { Artemis.initialState with state := .PROCESSING }).2.state =
      Artemis.ArtemisState.RESPONDING := by
  have h := c10_theorem ⟨"hi", none⟩ 1 "a1" 2 Conversation.initialConv
    { Artemis.initialState with state := .PROCESSING }
  exact (h.2.1 rfl).2

-- ===========================================================================
-- C5: SUGGESTION event handling and conversation-log approval
-- ===========================================================================

/-- Mapping a function guarded by a predicate no element satisfies is the
identity. -/
theorem map_ite_eq_self {α : Type _} (q : α → Prop) [DecidablePred q] (f : α → α)
    (l : List α) (h : ∀ x ∈ l, ¬ q x) :
    (l.map fun x => if q x then f x else x) = l := by
  induction l with
  | nil => rfl
  | cons a t ih =>
    have ha := h a (List.mem_cons_self a t)
    have ht := ih fun x hx => h x (List.mem_cons_of_mem a hx)
    simp [ha, ht]

/-- C5: dispatching a `SUGGESTION` event (with `requiresApproval = true`,
state machine in `PROCESSING`) appends exactly one pending suggestion entry
to the conversation log; approving that entry's id flips it to
`pending = false, approved = true` and leaves every other entry unchanged.
The freshness hypothesis is the id-generation contract (`generateId` never
repeats an id already in the log), which the `nextId` model makes exact. -/
theorem c5_theorem (p : MCP.SuggestionPayload) (ts : Nat) (c : Conversation.ConvState)
    (a : Artemis.ArtemisStore)
    (_hra : p.requiresApproval = true)
    (_hst : a.state = Artemis.ArtemisState.PROCESSING)
    (hfresh : ∀ m ∈ c.messages, m.id < c.nextId) :
    ∃ e : Conversation.ConversationMessage,
      (MCP.handleSuggestion p ts c).messages = c.messages ++ [e] ∧
      e.type = Conversation.ConvMessageType.SUGGESTION ∧
      e.pending = some true ∧
      (Conversation.approveSuggestion e.id (MCP.handleSuggestion p ts c)).messages =
        c.messages ++ [{ e with pending := some false, approved := some true }] := by
  refine ⟨⟨c.nextId, .SUGGESTION, p.content, ts,
    some ⟨p.actionType, p.targetId, p.parameters⟩, some true, none⟩, rfl, rfl, rfl, ?_⟩
  have hpre : c.messages.map
      (fun m => if m.id = c.nextId
        then { m with approved := some true, pending := some false } else m) =
      c.messages :=
    map_ite_eq_self (fun m => m.id = c.nextId) _ c.messages
      (fun m hm => Nat.ne_of_lt (hfresh m hm))
  simp only [MCP.handleSuggestion, Conversation.addSuggestion, Conversation.addMessage,
    Conversation.approveSuggestion, List.map_append, hpre]
  simp

/-- C5 witness: a concrete suggestion event on the empty conversation. -/
theorem c5_witness :
    ∃ e : Conversation.ConversationMessage,
      (MCP.handleSuggestion ⟨"Turn on the fan?", .device, "fan-1", none, .low, true⟩ 7
          Conversation.initialConv).messages = Conversation.initialConv.messages ++ [e] ∧
      e.type = Conversation.ConvMessageType.SUGGESTION ∧
      e.pending = some true ∧
      (Conversation.approveSuggestion e.id
          (MCP.handleSuggestion ⟨"Turn on the fan?", .device, "fan-1", none, .low, true⟩ 7
            Conversation.initialConv)).messages =
        Conversation.initialConv.messages ++
          [{ e with pending := some false, approved := some true }] :=
  c5_theorem ⟨"Turn on the fan?", .device, "fan-1", none, .low, true⟩ 7
    Conversation.initialConv { Artemis.initialState with state := .PROCESSING }
    rfl rfl (by intro m hm; cases hm)

-- ===========================================================================
-- C8: reasoning ring buffer keeps the most recent maxThoughts entries
-- ===========================================================================

/-- Folding `addThought` with capacity 20: the buffer is always the last 20
elements of everything ever appended. -/
theorem reasoning_foldl (l : List Reasoning.Thought) :
    ∀ (x : List Reasoning.Thought) (vis : Bool), x.length ≤ 20 →
      (l.foldl (fun s t => Reasoning.addThought t s)
        ⟨x, vis, 20⟩).thoughts = (x ++ l).drop (x.length + l.length - 20) := by
  induction l with
  | nil =>
    intro x vis hx
    simp [Nat.sub_eq_zero_of_le hx]
  | cons a t ih =>
    intro x vis hx
    simp only [List.foldl_cons]
    by_cases hlen : x.length = 20
    · have step : Reasoning.addThought a ⟨x, vis, 20⟩ =
          ⟨(x ++ [a]).drop 1, vis, 20⟩ := by
        simp [Reasoning.addThought, hlen]
      rw [step, ih _ _ (by simp [hlen])]
      have hy : ((x ++ [a]).drop 1).length = 20 := by simp [hlen]
      have hassoc : x ++ a :: t = (x ++ [a]) ++ t := by simp
      rw [hy, hassoc]
      have e1 : 20 + t.length - 20 = t.length := by omega
      have e2 : x.length + (a :: t).length - 20 = 1 + t.length := by
        simp only [List.length_cons]
        omega
      rw [e1, e2, ← List.drop_drop]
      have h1 : (1 : Nat) ≤ (x ++ [a]).length := by simp
      rw [List.drop_append_of_le_length h1]
    · have hnot : ¬ 20 < x.length + 1 := by omega
      have step : Reasoning.addThought a ⟨x, vis, 20⟩ = ⟨x ++ [a], vis, 20⟩ := by
        simp [Reasoning.addThought, hnot]
      rw [step, ih _ _ (by simp; omega)]
      have hassoc : x ++ a :: t = (x ++ [a]) ++ t := by simp
      rw [hassoc]
      congr 1
      simp only [List.length_append, List.length_cons, List.length_nil]
      omega

/-- C8: appending `20 + k` thoughts (k > 0) to the empty reasoning store
leaves exactly the most recently appended 20 thoughts, in insertion order. -/
theorem c8_theorem (ts : List Reasoning.Thought) (k : Nat) (hk : 0 < k)
    (hlen : ts.length = 20 + k) :
    (Reasoning.runThoughts ts).thoughts = ts.drop k ∧
    (Reasoning.runThoughts ts).thoughts.length = 20 := by
  have hinit : Reasoning.initialReasoning = (⟨[], false, 20⟩ : Reasoning.ReasoningStore) := rfl
  have h := reasoning_foldl ts [] false (by simp)
  rw [Reasoning.runThoughts, hinit, h]
  simp only [List.nil_append, List.length_nil, Nat.zero_add, hlen]
  have : 20 + k - 20 = k := by omega
  rw [this]
  exact ⟨rfl, by simp [hlen]⟩

/-- C8 witness: 21 concrete thoughts leave the last 20. -/
theorem c8_witness :
    (Reasoning.runThoughts ((List.range 21).map Reasoning.sampleThought)).thoughts =
      ((List.range 21).map Reasoning.sampleThought).drop 1 ∧
    (Reasoning.runThoughts ((List.range 21).map Reasoning.sampleThought)).thoughts.length = 20 :=
  c8_theorem ((List.range 21).map Reasoning.sampleThought) 1 (by decide) (by simp)

-- ===========================================================================
-- C6 / C7: sentence generator totality and the time-trigger scenario
-- ===========================================================================

theorem length_pos_left (x y : String) (hx : 0 < x.length) : 0 < (x ++ y).length := by
  rw [String.length_append]
  omega

theorem append_ne_empty (x y : String) (hx : 0 < x.length) : x ++ y ≠ "" := by
  intro h
  have hl := congrArg String.length h
  rw [String.length_append, String.length_empty] at hl
  omega

theorem eventPhrase_ne_empty (n p : String) (h : AAL.eventPhrase n = some p) : p ≠ "" := by
  unfold AAL.eventPhrase at h
  split_ifs at h <;>
    first
    | exact Option.noConfusion h
    | (injection h with h; subst h; decide)

theorem replaceUnderscores_empty_iff (s : String) :
    AAL.replaceUnderscores s = "" ↔ s = "" := by
  constructor
  · intro h
    have hd : (s.data.map fun c => if c = '_' then ' ' else c) = [] := congrArg String.data h
    exact String.ext (by simpa using List.map_eq_nil_iff.mp hd)
  · intro h
    subst h
    rfl

theorem formatEventTrigger_empty_iff (t : AAL.EventTrigger) :
    AAL.formatEventTrigger t = "" ↔ t.eventName = "" := by
  rcases hp : AAL.eventPhrase t.eventName with _ | p
  · unfold AAL.formatEventTrigger
    rw [hp]
    exact replaceUnderscores_empty_iff t.eventName
  · unfold AAL.formatEventTrigger
    rw [hp]
    constructor
    · intro h
      exact absurd h (eventPhrase_ne_empty _ _ hp)
    · intro h
      rw [h] at hp
      rw [show AAL.eventPhrase "" = none from rfl] at hp
      exact Option.noConfusion hp

theorem formatSensorTrigger_ne_empty (t : AAL.SensorTrigger) :
    AAL.formatSensorTrigger t ≠ "" := by
  unfold AAL.formatSensorTrigger
  apply append_ne_empty
  repeat' apply length_pos_left
  decide

theorem formatTimeTrigger_ne_empty (t : AAL.TimeTrigger) :
    AAL.formatTimeTrigger t ≠ "" := by
  simp only [AAL.formatTimeTrigger]
  repeat' split
  all_goals
    apply append_ne_empty
  all_goals
    repeat' apply length_pos_left
  all_goals decide

theorem formatDeviceTrigger_ne_empty (t : AAL.DeviceTrigger) :
    AAL.formatDeviceTrigger t ≠ "" := by
  unfold AAL.formatDeviceTrigger
  intro h
  have hl := congrArg String.length h
  simp only [String.length_append, String.length_empty] at hl
  have h1 : " ".length = 1 := rfl
  omega

theorem formatAction_ne_empty (a : AAL.Action) : AAL.formatAction a ≠ "" := by
  cases a with
  | device a =>
    simp only [AAL.formatAction, AAL.formatDeviceAction]
    split
    all_goals
      apply append_ne_empty
    all_goals decide
  | set a =>
    simp only [AAL.formatAction, AAL.formatSetAction]
    apply append_ne_empty
    repeat' apply length_pos_left
    decide
  | notify a =>
    simp only [AAL.formatAction, AAL.formatNotifyAction]
    apply append_ne_empty
    repeat' apply length_pos_left
    decide
  | delay a =>
    simp only [AAL.formatAction]
    apply append_ne_empty
    repeat' apply length_pos_left
    decide
  | scene a =>
    simp only [AAL.formatAction, AAL.formatSceneAction]
    apply append_ne_empty
    repeat' apply length_pos_left
    decide

/-- C6, counterexample: `formatTrigger` on an event trigger whose `eventName`
is the (unknown) empty string returns the empty string: the table misses, and
the `replace(/_/g, ' ')` fallback of `""` is `""`. -/
theorem c6_counterexample :
    AAL.formatTrigger (AAL.Trigger.event ⟨"", none⟩) = "" := by
  rfl

/-- C6, amended: `formatAction` returns a non-empty string on every action
variant, and `formatTrigger` returns a non-empty string on every trigger —
including unknown `sensorType`/`eventName` strings — except precisely an
event trigger with the empty `eventName`, where it returns `""`; being total
functions, neither ever throws. -/
theorem c6_amended :
    (∀ a : AAL.Action, AAL.formatAction a ≠ "") ∧
    (∀ t : AAL.Trigger, AAL.formatTrigger t = "" ↔
      ∃ d : Option String, t = AAL.Trigger.event ⟨"", d⟩) := by
  refine ⟨formatAction_ne_empty, ?_⟩
  intro t
  cases t with
  | sensor st =>
    simp only [AAL.formatTrigger]
    constructor
    · intro h
      exact absurd h (formatSensorTrigger_ne_empty st)
    · rintro ⟨d, h⟩
      exact AAL.Trigger.noConfusion h
  | time tt =>
    simp only [AAL.formatTrigger]
    constructor
    · intro h
      exact absurd h (formatTimeTrigger_ne_empty tt)
    · rintro ⟨d, h⟩
      exact AAL.Trigger.noConfusion h
  | event e =>
    obtain ⟨n, d⟩ := e
    simp only [AAL.formatTrigger]
    rw [formatEventTrigger_empty_iff]
    constructor
    · intro h
      subst h
      exact ⟨d, rfl⟩
    · rintro ⟨d2, h⟩
      injection h with h2
      exact congrArg AAL.EventTrigger.eventName h2
  | device dt =>
    simp only [AAL.formatTrigger]
    constructor
    · intro h
      exact absurd h (formatDeviceTrigger_ne_empty dt)
    · rintro ⟨d, h⟩
      exact AAL.Trigger.noConfusion h

/-- C6 witness: the amended totality at concrete inputs. -/
theorem c6_witness :
    AAL.formatAction (AAL.Action.delay ⟨10⟩) ≠ "" ∧
    (AAL.formatTrigger (AAL.Trigger.event ⟨"garage_opened", none⟩) = "" ↔
      ∃ d : Option String,
        AAL.Trigger.event ⟨"garage_opened", none⟩ = AAL.Trigger.event ⟨"", d⟩) :=
  ⟨c6_amended.1 (AAL.Action.delay ⟨10⟩),
   c6_amended.2 (AAL.Trigger.event ⟨"garage_opened", none⟩)⟩

/-- C7: the time trigger `18:30` on Monday and Wednesday with `repeat = true`
renders as the days-subset sentence (the `" every day"` suffix of the repeat
rule does not apply). -/
theorem c7_theorem :
    AAL.formatTrigger (AAL.Trigger.time ⟨"18:30", some [AAL.Day.mon, AAL.Day.wed], true⟩) =
      "it's 6:30 PM on Monday, Wednesday" := by
  rfl

-- ===========================================================================
-- C4: triggerCount / lastTriggered discipline in the automation store
-- ===========================================================================

theorem find_map_id_pred {α : Type _} (g : α → α) (p : α → Bool) (l : List α)
    (h : ∀ x, p (g x) = p x) :
    (l.map g).find? p = (l.find? p).map g := by
  induction l with
  | nil => rfl
  | cons a t ih =>
    by_cases hpa : p a = true
    · rw [List.map_cons, List.find?_cons_of_pos _ (by rw [h a]; exact hpa),
        List.find?_cons_of_pos _ hpa]
      rfl
    · rw [List.map_cons, List.find?_cons_of_neg _ (by rw [h a]; exact hpa),
        List.find?_cons_of_neg _ hpa, ih]

theorem find_filter_none {α : Type _} (q p : α → Bool) (l : List α)
    (h : ∀ x, q x = true → p x = false) :
    (l.filter q).find? p = none := by
  rw [List.find?_eq_none]
  intro x hx
  have hq := List.of_mem_filter hx
  simp [h x hq]

theorem find_filter_eq {α : Type _} (q p : α → Bool) (l : List α)
    (h : ∀ x, q x = false → p x = false) :
    (l.filter q).find? p = l.find? p := by
  induction l with
  | nil => rfl
  | cons a t ih =>
    by_cases hqa : q a = true
    · rw [List.filter_cons_of_pos hqa]
      by_cases hpa : p a = true
      · rw [List.find?_cons_of_pos _ hpa, List.find?_cons_of_pos _ hpa]
      · rw [List.find?_cons_of_neg _ hpa, List.find?_cons_of_neg _ hpa, ih]
    · have hqa2 : q a = false := by simpa using hqa
      have hpa : p a = false := h a hqa2
      rw [List.filter_cons_of_neg hqa, List.find?_cons_of_neg _ (by simp [hpa]), ih]

theorem ruleFields_map (g : AutomationStore.AutomationRule → AutomationStore.AutomationRule)
    (hid : ∀ r, (g r).id = r.id) (rules : List AutomationStore.AutomationRule) (i : String) :
    AutomationStore.ruleFields (rules.map g) i =
      (rules.find? fun r => decide (r.id = i)).map
        fun r => ((g r).triggerCount, (g r).lastTriggered) := by
  unfold AutomationStore.ruleFields
  rw [find_map_id_pred g _ _ (fun r => by simp [hid r]), Option.map_map]
  rfl

theorem ruleFields_map_none (g : AutomationStore.AutomationRule → AutomationStore.AutomationRule)
    (hid : ∀ r, (g r).id = r.id) (rules : List AutomationStore.AutomationRule) (i : String)
    (h : AutomationStore.ruleFields rules i = none) :
    AutomationStore.ruleFields (rules.map g) i = none := by
  rw [ruleFields_map g hid]
  unfold AutomationStore.ruleFields at h
  rcases Option.map_eq_none'.mp h with hfind
  rw [hfind]
  rfl

theorem ruleFields_map_preserve
    (g : AutomationStore.AutomationRule → AutomationStore.AutomationRule) (i : String)
    (hid : ∀ r, (g r).id = r.id)
    (hf : ∀ r, r.id = i →
      (g r).triggerCount = r.triggerCount ∧ (g r).lastTriggered = r.lastTriggered)
    (rules : List AutomationStore.AutomationRule) :
    AutomationStore.ruleFields (rules.map g) i = AutomationStore.ruleFields rules i := by
  rw [ruleFields_map g hid]
  unfold AutomationStore.ruleFields
  cases hfind : rules.find? fun r => decide (r.id = i) with
  | none => rfl
  | some r =>
    have hpr : r.id = i := by simpa using List.find?_some hfind
    simp [(hf r hpr).1, (hf r hpr).2]

theorem ruleFields_updateRule (id : String) (p : AutomationStore.RulePatch) (now : Nat)
    (hp1 : p.id = none) (hp2 : p.triggerCount = none) (hp3 : p.lastTriggered = none)
    (rules : List AutomationStore.AutomationRule) (i : String) :
    AutomationStore.ruleFields (AutomationStore.updateRule id p now rules) i =
      AutomationStore.ruleFields rules i := by
  unfold AutomationStore.updateRule
  apply ruleFields_map_preserve
  · intro r
    split
    · simp [AutomationStore.applyPatch, hp1]
    · rfl
  · intro r _
    constructor <;>
      (split
       · simp [AutomationStore.applyPatch, hp2, hp3]
       · rfl)

theorem ruleFields_toggleRule (id : String) (now : Nat)
    (rules : List AutomationStore.AutomationRule) (i : String) :
    AutomationStore.ruleFields (AutomationStore.toggleRule id now rules) i =
      AutomationStore.ruleFields rules i := by
  unfold AutomationStore.toggleRule
  apply ruleFields_map_preserve
  · intro r
    split <;> rfl
  · intro r _
    constructor <;> (split <;> rfl)

theorem ruleFields_recordTrigger (rules : List AutomationStore.AutomationRule)
    (i : String) (now : Nat) :
    AutomationStore.ruleFields (AutomationStore.recordTrigger i now rules) i =
      (AutomationStore.ruleFields rules i).map fun x => (x.1 + 1, some now) := by
  unfold AutomationStore.recordTrigger
  rw [ruleFields_map _ (fun r => by split <;> rfl)]
  unfold AutomationStore.ruleFields
  cases hfind : rules.find? fun r => decide (r.id = i) with
  | none => rfl
  | some r =>
    have hpr : r.id = i := by simpa using List.find?_some hfind
    simp [hpr]

theorem ruleFields_recordTrigger_other (rules : List AutomationStore.AutomationRule)
    (target i : String) (now : Nat) (hne : i ≠ target) :
    AutomationStore.ruleFields (AutomationStore.recordTrigger target now rules) i =
      AutomationStore.ruleFields rules i := by
  unfold AutomationStore.recordTrigger
  apply ruleFields_map_preserve
  · intro r
    split <;> rfl
  · intro r hri
    have : ¬ r.id = target := by rw [hri]; exact hne
    rw [if_neg this]
    exact ⟨rfl, rfl⟩

theorem ruleFields_addRule_of_some (d : AutomationStore.NewRuleData) (id : String)
    (now : Nat) (rules : List AutomationStore.AutomationRule) (i : String)
    (x : Nat × Option Nat) (h : AutomationStore.ruleFields rules i = some x) :
    AutomationStore.ruleFields (AutomationStore.addRule d id now rules) i = some x := by
  unfold AutomationStore.addRule
  unfold AutomationStore.ruleFields at h ⊢
  rw [List.find?_append]
  cases hfind : rules.find? fun r => decide (r.id = i) with
  | none => rw [hfind] at h; exact Option.noConfusion h
  | some r =>
    rw [hfind] at h
    exact h

theorem ruleFields_addRule_of_none (d : AutomationStore.NewRuleData) (id : String)
    (now : Nat) (rules : List AutomationStore.AutomationRule) (i : String)
    (hne : id ≠ i) (h : AutomationStore.ruleFields rules i = none) :
    AutomationStore.ruleFields (AutomationStore.addRule d id now rules) i = none := by
  unfold AutomationStore.addRule
  unfold AutomationStore.ruleFields at h ⊢
  rcases Option.map_eq_none'.mp h with hfind
  rw [List.find?_append, hfind]
  simp [List.find?, hne]

theorem ruleFields_deleteRule_self (id : String)
    (rules : List AutomationStore.AutomationRule) :
    AutomationStore.ruleFields (AutomationStore.deleteRule id rules) id = none := by
  unfold AutomationStore.deleteRule AutomationStore.ruleFields
  rw [find_filter_none]
  · rfl
  · intro r hq
    simp only [decide_eq_true_eq] at hq ⊢
    simpa using hq

theorem ruleFields_deleteRule_other (id : String)
    (rules : List AutomationStore.AutomationRule) (i : String) (hne : id ≠ i) :
    AutomationStore.ruleFields (AutomationStore.deleteRule id rules) i =
      AutomationStore.ruleFields rules i := by
  unfold AutomationStore.deleteRule AutomationStore.ruleFields
  rw [find_filter_eq]
  intro r hq
  simp only [decide_eq_false_iff_not, Decidable.not_not] at hq
  simp [hq, hne]

/-- A benign operation preserves (or, for `deleteRule`, removes) the
`(triggerCount, lastTriggered)` observation of any rule already present. -/
theorem benign_step (o : AutomationStore.AutoOp)
    (rules : List AutomationStore.AutomationRule) (i : String) (x : Nat × Option Nat)
    (hb : AutomationStore.benign o = true)
    (h : AutomationStore.ruleFields rules i = some x) :
    AutomationStore.ruleFields (AutomationStore.applyAutoOp o rules) i = some x ∨
      AutomationStore.ruleFields (AutomationStore.applyAutoOp o rules) i = none := by
  cases o with
  | addRule d id now =>
    exact Or.inl (ruleFields_addRule_of_some d id now rules i x h)
  | updateRule id p now =>
    simp only [AutomationStore.benign, Bool.and_eq_true, decide_eq_true_eq] at hb
    rw [show AutomationStore.applyAutoOp (.updateRule id p now) rules =
      AutomationStore.updateRule id p now rules from rfl,
      ruleFields_updateRule id p now hb.1.1 hb.1.2 hb.2]
    exact Or.inl h
  | deleteRule id =>
    by_cases hii : id = i
    · subst hii
      exact Or.inr (ruleFields_deleteRule_self id rules)
    · rw [show AutomationStore.applyAutoOp (.deleteRule id) rules =
        AutomationStore.deleteRule id rules from rfl,
        ruleFields_deleteRule_other id rules i hii]
      exact Or.inl h
  | toggleRule id now =>
    rw [show AutomationStore.applyAutoOp (.toggleRule id now) rules =
      AutomationStore.toggleRule id now rules from rfl,
      ruleFields_toggleRule id now rules i]
    exact Or.inl h
  | enableRule id now =>
    rw [show AutomationStore.applyAutoOp (.enableRule id now) rules =
      AutomationStore.updateRule id
        { AutomationStore.emptyPatch with enabled := some true } now rules from rfl,
      ruleFields_updateRule _ _ _ rfl rfl rfl]
    exact Or.inl h
  | disableRule id now =>
    rw [show AutomationStore.applyAutoOp (.disableRule id now) rules =
      AutomationStore.updateRule id
        { AutomationStore.emptyPatch with enabled := some false } now rules from rfl,
      ruleFields_updateRule _ _ _ rfl rfl rfl]
    exact Or.inl h
  | setRuleTrust id trust now =>
    rw [show AutomationStore.applyAutoOp (.setRuleTrust id trust now) rules =
      AutomationStore.updateRule id
        { AutomationStore.emptyPatch with
          trustLevel := some trust
          requiresConfirmation :=
            some (decide (trust = AutomationStore.TrustLevel.ask_always)) } now rules from rfl,
      ruleFields_updateRule _ _ _ rfl rfl rfl]
    exact Or.inl h
  | recordTrigger id now => exact Bool.noConfusion hb
  | resetRules now => exact Bool.noConfusion hb

/-- Once a rule id is absent, no benign or `recordTrigger` operation whose
`addRule` ids avoid it brings it back. -/
theorem auto_none_step (o : AutomationStore.AutoOp)
    (rules : List AutomationStore.AutomationRule) (i : String)
    (hallow : AutomationStore.benign o = true ∨
      ∃ j now, o = AutomationStore.AutoOp.recordTrigger j now)
    (haddr : ∀ d id now, o = AutomationStore.AutoOp.addRule d id now → id ≠ i)
    (h : AutomationStore.ruleFields rules i = none) :
    AutomationStore.ruleFields (AutomationStore.applyAutoOp o rules) i = none := by
  cases o with
  | addRule d id now =>
    exact ruleFields_addRule_of_none d id now rules i (haddr d id now rfl) h
  | updateRule id p now =>
    rcases hallow with hb | ⟨j, nw, hj⟩
    · simp only [AutomationStore.benign, Bool.and_eq_true, decide_eq_true_eq] at hb
      rw [show AutomationStore.applyAutoOp (.updateRule id p now) rules =
        AutomationStore.updateRule id p now rules from rfl,
        ruleFields_updateRule id p now hb.1.1 hb.1.2 hb.2]
      exact h
    · exact AutomationStore.AutoOp.noConfusion hj
  | deleteRule id =>
    by_cases hii : id = i
    · subst hii
      exact ruleFields_deleteRule_self id rules
    · rw [show AutomationStore.applyAutoOp (.deleteRule id) rules =
        AutomationStore.deleteRule id rules from rfl,
        ruleFields_deleteRule_other id rules i hii]
      exact h
  | toggleRule id now =>
    rw [show AutomationStore.applyAutoOp (.toggleRule id now) rules =
      AutomationStore.toggleRule id now rules from rfl,
      ruleFields_toggleRule id now rules i]
    exact h
  | enableRule id now =>
    rw [show AutomationStore.applyAutoOp (.enableRule id now) rules =
      AutomationStore.updateRule id
        { AutomationStore.emptyPatch with enabled := some true } now rules from rfl,
      ruleFields_updateRule _ _ _ rfl rfl rfl]
    exact h
  | disableRule id now =>
    rw [show AutomationStore.applyAutoOp (.disableRule id now) rules =
      AutomationStore.updateRule id
        { AutomationStore.emptyPatch with enabled := some false } now rules from rfl,
      ruleFields_updateRule _ _ _ rfl rfl rfl]
    exact h
  | setRuleTrust id trust now =>
    rw [show AutomationStore.applyAutoOp (.setRuleTrust id trust now) rules =
      AutomationStore.updateRule id
        { AutomationStore.emptyPatch with
          trustLevel := some trust
          requiresConfirmation :=
            some (decide (trust = AutomationStore.TrustLevel.ask_always)) } now rules from rfl,
      ruleFields_updateRule _ _ _ rfl rfl rfl]
    exact h
  | recordTrigger id now =>
    by_cases hii : i = id
    · subst hii
      rw [show AutomationStore.applyAutoOp (.recordTrigger i now) rules =
        AutomationStore.recordTrigger i now rules from rfl,
        ruleFields_recordTrigger rules i now, h]
      rfl
    · rw [show AutomationStore.applyAutoOp (.recordTrigger id now) rules =
        AutomationStore.recordTrigger id now rules from rfl,
        ruleFields_recordTrigger_other rules id i now hii]
      exact h
  | resetRules now =>
    rcases hallow with hb | ⟨j, nw, hj⟩
    · exact Bool.noConfusion hb
    · exact AutomationStore.AutoOp.noConfusion hj

/-- One allowed step keeps the trigger count of rule `i` at or above `n` (or
removes the rule). -/
theorem auto_step (o : AutomationStore.AutoOp)
    (rules : List AutomationStore.AutomationRule) (i : String) (n : Nat)
    (hallow : AutomationStore.benign o = true ∨
      ∃ j now, o = AutomationStore.AutoOp.recordTrigger j now)
    (haddr : ∀ d id now, o = AutomationStore.AutoOp.addRule d id now → id ≠ i)
    (h : AutomationStore.ruleFields rules i = none ∨
      ∃ m lt, AutomationStore.ruleFields rules i = some (m, lt) ∧ n ≤ m) :
    AutomationStore.ruleFields (AutomationStore.applyAutoOp o rules) i = none ∨
      ∃ m lt, AutomationStore.ruleFields (AutomationStore.applyAutoOp o rules) i =
        some (m, lt) ∧ n ≤ m := by
  rcases h with hnone | ⟨m, lt, hsome, hnm⟩
  · exact Or.inl (auto_none_step o rules i hallow haddr hnone)
  · rcases hallow with hb | ⟨j, now, hj⟩
    · rcases benign_step o rules i (m, lt) hb hsome with hkeep | hgone
      · exact Or.inr ⟨m, lt, hkeep, hnm⟩
      · exact Or.inl hgone
    · subst hj
      by_cases hii : i = j
      · subst hii
        rw [show AutomationStore.applyAutoOp (.recordTrigger i now) rules =
          AutomationStore.recordTrigger i now rules from rfl,
          ruleFields_recordTrigger rules i now, hsome]
        exact Or.inr ⟨m + 1, some now, rfl, Nat.le_succ_of_le hnm⟩
      · rw [show AutomationStore.applyAutoOp (.recordTrigger j now) rules =
          AutomationStore.recordTrigger j now rules from rfl,
          ruleFields_recordTrigger_other rules j i now hii]
        exact Or.inr ⟨m, lt, hsome, hnm⟩

/-- The invariant of `auto_step`, carried over a whole operation sequence. -/
theorem auto_invariant (i : String) (n : Nat) :
    ∀ (ops : List AutomationStore.AutoOp) (rules : List AutomationStore.AutomationRule),
      (∀ o ∈ ops, AutomationStore.benign o = true ∨
        ∃ j now, o = AutomationStore.AutoOp.recordTrigger j now) →
      (∀ d id now, AutomationStore.AutoOp.addRule d id now ∈ ops → id ≠ i) →
      (AutomationStore.ruleFields rules i = none ∨
        ∃ m lt, AutomationStore.ruleFields rules i = some (m, lt) ∧ n ≤ m) →
      (AutomationStore.ruleFields (AutomationStore.runAuto ops rules) i = none ∨
        ∃ m lt, AutomationStore.ruleFields (AutomationStore.runAuto ops rules) i =
          some (m, lt) ∧ n ≤ m) := by
  intro ops
  induction ops with
  | nil => intro rules _ _ h; exact h
  | cons o t ih =>
    intro rules hallow haddr h
    have hstep := auto_step o rules i n (hallow o (List.mem_cons_self o t))
      (fun d id now he => haddr d id now (he ▸ List.mem_cons_self o t)) h
    exact ih (AutomationStore.applyAutoOp o rules)
      (fun o2 ho2 => hallow o2 (List.mem_cons_of_mem o ho2))
      (fun d id now hmem => haddr d id now (List.mem_cons_of_mem o hmem))
      hstep

/-- C4, counterexample: `updateRule` with a patch that carries `triggerCount`
writes the field — here decreasing it from 5 to 0 — so `recordTrigger` is not
the only writer and the count is not monotone under arbitrary store
operations. -/
theorem c4_counterexample :
    AutomationStore.ruleFields [AutomationStore.sampleRule] "r1" = some (5, none) ∧
    AutomationStore.ruleFields
      (AutomationStore.applyAutoOp
        (.updateRule "r1" { AutomationStore.emptyPatch with triggerCount := some 0 } 9)
        [AutomationStore.sampleRule]) "r1" = some (0, none) := by
  constructor <;> rfl

/-- C4, amended: `recordTrigger` increments the matching rule's
`triggerCount` by exactly 1 and sets `lastTriggered`; every other rule-store
operation — except `reset` and an `updateRule` whose patch explicitly carries
`id`, `triggerCount` or `lastTriggered` — preserves both fields of every rule
present (or removes the rule); consequently, along any sequence of such
operations whose `addRule` ids avoid a tracked rule's id, that rule's
`triggerCount` never decreases. -/
theorem c4_amended :
    (∀ (rules : List AutomationStore.AutomationRule) (i : String) (now n : Nat)
        (lt : Option Nat),
        AutomationStore.ruleFields rules i = some (n, lt) →
        AutomationStore.ruleFields
          (AutomationStore.applyAutoOp (.recordTrigger i now) rules) i =
          some (n + 1, some now)) ∧
    (∀ (o : AutomationStore.AutoOp) (rules : List AutomationStore.AutomationRule)
        (i : String) (x : Nat × Option Nat),
        AutomationStore.benign o = true →
        AutomationStore.ruleFields rules i = some x →
        AutomationStore.ruleFields (AutomationStore.applyAutoOp o rules) i = some x ∨
          AutomationStore.ruleFields (AutomationStore.applyAutoOp o rules) i = none) ∧
    (∀ (ops : List AutomationStore.AutoOp) (rules : List AutomationStore.AutomationRule)
        (i : String) (n m : Nat) (lt lt2 : Option Nat),
        (∀ o ∈ ops, AutomationStore.benign o = true ∨
          ∃ j now, o = AutomationStore.AutoOp.recordTrigger j now) →
        (∀ d id now, AutomationStore.AutoOp.addRule d id now ∈ ops → id ≠ i) →
        AutomationStore.ruleFields rules i = some (n, lt) →
        AutomationStore.ruleFields (AutomationStore.runAuto ops rules) i = some (m, lt2) →
        n ≤ m) := by
  refine ⟨?_, benign_step, ?_⟩
  · intro rules i now n lt h
    rw [show AutomationStore.applyAutoOp (.recordTrigger i now) rules =
      AutomationStore.recordTrigger i now rules from rfl,
      ruleFields_recordTrigger rules i now, h]
    rfl
  · intro ops rules i n m lt lt2 hallow haddr hstart hend
    have hinv := auto_invariant i n ops rules hallow haddr
      (Or.inr ⟨n, lt, hstart, Nat.le_refl n⟩)
    rcases hinv with hnone | ⟨m2, lt3, hsome, hle⟩
    · rw [hend] at hnone
      exact Option.noConfusion hnone
    · rw [hend] at hsome
      injection hsome with hpair
      have hm : m = m2 := by
        have := congrArg Prod.fst hpair
        simpa using this
      rw [hm]
      exact hle

/-- C4 witness: the amended statement at a concrete store — one
`recordTrigger` takes the sample rule's count from 5 to 6, and the sequence
bound gives 5 ≤ 6. -/
theorem c4_witness :
    AutomationStore.ruleFields [AutomationStore.sampleRule] "r1" = some (5, none) ∧
    AutomationStore.ruleFields
      (AutomationStore.runAuto [.recordTrigger "r1" 3] [AutomationStore.sampleRule]) "r1" =
      some (6, some 3) ∧
    5 ≤ 6 :=
  ⟨rfl, rfl,
    c4_amended.2.2 [.recordTrigger "r1" 3] [AutomationStore.sampleRule] "r1" 5 6 none (some 3)
      (by
        intro o ho
        rw [List.mem_singleton] at ho
        subst ho
        exact Or.inr ⟨"r1", 3, rfl⟩)
      (by
        intro d id now hmem
        rw [List.mem_singleton] at hmem
        exact AutomationStore.AutoOp.noConfusion hmem)
      rfl rfl⟩
